import Mathlib

/-!
Verification development for the VS Code Copilot usage-telemetry collector.

The definitions below are a shallow embedding of the JavaScript source:
- `parseCopilotLine`, `parseChatLine`, `CopilotParser.aggregate` from `src/parser.js`
  (class `CopilotParser`),
- `saveMetricsToJSON`'s merge step (`mergeMetrics`) from `src/parser.js`,
- `filterNewParsedFiles`, `parseFileIncremental` and the parsing pass of
  `parseAndSaveMetrics` from `src/collector.js` (class `LogCollector`),
- `StateManager.loadCollectionState` / `loadParsingState`,
- `HealthChecker.performHealthCheck` / `checkMetricsDirectory` from `src/health-check.js`.

Modelling conventions:
- JavaScript strings are Lean `String`s; line-level scanning works on `String.data`
  (the list of characters).  Log lines come from `content.split('\n')`, so a line
  never contains a newline character.
- JavaScript numbers are modelled as `ℚ` (the numeric strings the parsers accept
  are plain decimal literals, parsed exactly; `NaN` does not arise on the inputs
  any claim touches).
- A JavaScript object used as a dictionary is an insertion-ordered association
  list `List (String × β)`; property assignment is `objInsert` (update in place
  if the key is present, append otherwise — exactly the JS object semantics for
  non-index keys, which all keys here are since they contain `|`, `/` or `-`).
- File sizes are character counts: the collector itself compares `stat.size`
  with `content.length` of the same file, and the embedding models a file as its
  content string.
-/

/-- `[0-9]`, the character class of the `\d` regex atom. -/
def isDigitCh (c : Char) : Bool :=
  '0' ≤ c && c ≤ '9'

/-- Value of a digit string, most significant first. -/
def digitsToNat (ds : List Char) : Nat :=
  ds.foldl (fun n c => 10 * n + (c.toNat - '0'.toNat)) 0

/-- `parseFloat` on a string drawn from `[0-9.]+` (as captured by the two log
regexes): integer part up to the first dot, then the digit run after it.
Modelled exactly as a rational. -/
def parseDecimal (ds : List Char) : ℚ :=
  let intPart := ds.takeWhile isDigitCh
  let rest := ds.dropWhile isDigitCh
  match rest with
  | '.' :: frac0 =>
      let frac := frac0.takeWhile isDigitCh
      (digitsToNat intPart : ℚ) + (digitsToNat frac : ℚ) / ((10 : ℚ) ^ frac.length)
  | _ => (digitsToNat intPart : ℚ)

/-- Match the anchored date group `^\d{4}-\d{2}-\d{2}` of both log regexes:
returns the ten matched characters and the remainder of the line. -/
def matchDate : List Char → Option (List Char × List Char)
  | y1 :: y2 :: y3 :: y4 :: '-' :: m1 :: m2 :: '-' :: d1 :: d2 :: rest =>
      if ([y1, y2, y3, y4, m1, m2, d1, d2].all isDigitCh) then
        some ([y1, y2, y3, y4, '-', m1, m2, '-', d1, d2], rest)
      else
        none
  | _ => none

/-- Drop an expected literal prefix, failing if it is absent. -/
def dropLit : List Char → List Char → Option (List Char)
  | [], cs => some cs
  | _ :: _, [] => none
  | p :: ps, c :: cs => if c = p then dropLit ps cs else none

/-- `CopilotLogEntry` as built by `parseCopilotLine` / `parseChatLine`
(`src/parser.js`). -/
structure LogEntry where
  date : String
  source : String
  served_by : String
  action : String
  response_time : ℚ
  name : String
  company : String
  team : String
deriving DecidableEq, Repr

/-- Characters excluded from the `served_by` capture class `[^ >]+`. -/
def servedByStop (c : Char) : Bool :=
  c = ' ' || c = '>'

/-- Characters of the duration class `[0-9.]`. -/
def isDurCh (c : Char) : Bool :=
  isDigitCh c || c = '.'

/-- Attempt the tail of `COPILOT_RE` starting right after one occurrence of
`" at "`: `<?(?<served_by>https:\/\/[^ >]+)>? finished with 200 status after
(?<duration>[0-9.]+)ms`.  The greedy character classes are deterministic here:
`[^ >]+` must stop exactly at a space or `>` (the following literal starts with
a space), and `[0-9.]+` must be the maximal run (the following literal starts
with `m`). -/
def matchAtTail (cs : List Char) : Option (List Char × List Char) := do
  let cs1 := match cs with
    | '<' :: r => r
    | r => r
  let rest ← dropLit "https://".data cs1
  let body := rest.takeWhile (fun c => !servedByStop c)
  if body.isEmpty then none else
  let servedBy := "https://".data ++ body
  let rest2 := rest.dropWhile (fun c => !servedByStop c)
  let rest3 := match rest2 with
    | '>' :: r => r
    | r => r
  let rest4 ← dropLit " finished with 200 status after ".data rest3
  let dur := rest4.takeWhile isDurCh
  if dur.isEmpty then none else
  let rest5 := rest4.dropWhile isDurCh
  let _ ← dropLit "ms".data rest5
  some (servedBy, dur)

/-- All suffixes of `cs` that start right after an occurrence of `" at "`,
in left-to-right order of the occurrence. -/
def atSuffixes : List Char → List (List Char)
  | [] => []
  | c :: rest =>
      let tails := atSuffixes rest
      if (" at ".data).isPrefixOf (c :: rest) then ((c :: rest).drop 4) :: tails
      else tails

/-- `CopilotParser.parseCopilotLine` (`src/parser.js`): match `COPILOT_RE`
`^(?<date>\d{4}-\d{2}-\d{2}).* at <?(?<served_by>https:\/\/[^ >]+)>? finished
with 200 status after (?<duration>[0-9.]+)ms` against the line.  The greedy
`.*` is modelled by trying the `" at "` occurrences from the last one
backwards. -/
def parseCopilotLine (line userName company team : String) : Option LogEntry :=
  match matchDate line.data with
  | none => none
  | some (date, rest) =>
      match (atSuffixes rest).reverse.findSome? matchAtTail with
      | none => none
      | some (servedBy, dur) =>
          some {
            date := String.mk date
            source := "copilot"
            served_by := String.mk servedBy
            action := "completion"
            response_time := parseDecimal dur
            name := userName
            company := company
            team := team }

/-- Split a character list at every occurrence of `sep`, as
`string.split(sep)` does for a one-character separator. -/
def splitOnCh (sep : Char) : List Char → List (List Char)
  | [] => [[]]
  | c :: rest =>
      let r := splitOnCh sep rest
      if c = sep then [] :: r
      else
        match r with
        | [] => [[c]]
        | p :: ps => (c :: p) :: ps

/-- `line.split("|")`. -/
def splitPipe (cs : List Char) : List (List Char) :=
  splitOnCh '|' cs

/-- `String.prototype.trim`: strip leading and trailing whitespace. -/
def trimChars (cs : List Char) : List Char :=
  ((cs.dropWhile Char.isWhitespace).reverse.dropWhile Char.isWhitespace).reverse

/-- First index of `a`, or `none` (`Array.prototype.indexOf` with its `-1`
result modelled as `none`). -/
def idxOf? {α : Type} [DecidableEq α] (a : α) : List α → Option Nat
  | [] => none
  | b :: r => if b = a then some 0 else (idxOf? a r).map (· + 1)

/-- The regex `/(\d+)/`: first maximal digit run anywhere in the string. -/
def firstDigitRun (cs : List Char) : Option (List Char) :=
  let rest := cs.dropWhile (fun c => !isDigitCh c)
  match rest with
  | [] => none
  | _ => some (rest.takeWhile isDigitCh)

/-- `String.prototype.includes`: does `pat` occur contiguously in the list? -/
def containsSub (pat : List Char) : List Char → Bool
  | [] => pat.isEmpty
  | c :: rest => pat.isPrefixOf (c :: rest) || containsSub pat rest

/-- The pipe-delimited, trimmed tokens of a line: `line.split("|").map(p => p.trim())`. -/
def chatParts (line : String) : List (List Char) :=
  (splitPipe line.data).map trimChars

/-- `CopilotParser.parseChatLine` (`src/parser.js`): require the
`"copilotmd | success"` marker and a leading date, then take the 1st, 2nd and
3rd pipe-delimited tokens after the `"success"` token as `served_by`,
`response_time` and `action` (the JS locals are written inline here). -/
def parseChatLine (line userName company team : String) : Option LogEntry :=
  if !(containsSub "copilotmd | success".data line.data) then none else
  match matchDate line.data with
  | none => none
  | some (date, _) =>
      match idxOf? "success".data (chatParts line) with
      | none => none
      | some idx =>
          if (chatParts line).length ≤ idx + 3 then none else
          match firstDigitRun ((chatParts line).getD (idx + 2) []) with
          | none => none
          | some ds =>
              some {
                date := String.mk date
                source := "copilot-chat"
                served_by := String.mk ((chatParts line).getD (idx + 1) [])
                action := String.mk ((chatParts line).getD (idx + 3) [])
                response_time := parseDecimal ds
                name := userName
                company := company
                team := team }

/-- A usage event as the specification presents it (§3): same data as
`LogEntry`, with the spec's field names and its source-kind enum. -/
structure UsageEvent where
  date : String
  source : String
  servedBy : String
  action : String
  responseTimeMs : ℚ
  name : String
  company : String
  team : String
deriving DecidableEq, Repr

/-- The spec's name (§3, enum `completion-engine | chat-engine`) for the code's
source tag strings (`'copilot'`, `'copilot-chat'`). -/
def specSourceName (s : String) : String :=
  if s = "copilot" then "completion-engine"
  else if s = "copilot-chat" then "chat-engine"
  else s

/-- View a code-level `LogEntry` as the spec's `UsageEvent`. -/
def toUsageEvent (e : LogEntry) : UsageEvent :=
  { date := e.date
    source := specSourceName e.source
    servedBy := e.served_by
    action := e.action
    responseTimeMs := e.response_time
    name := e.name
    company := e.company
    team := e.team }

/-!
JavaScript objects used as dictionaries.  All keys used by the program contain
a `|`, `/`, `-` or `.`, so none is an array index and the object preserves
insertion order; assignment updates the existing entry in place or appends a
fresh one.
-/

/-- Property assignment `m[k] = upd(m[k])` on an insertion-ordered object. -/
def objInsert {β : Type} (k : String) (upd : Option β → β) :
    List (String × β) → List (String × β)
  | [] => [(k, upd none)]
  | (k', v) :: rest =>
      if k' = k then (k', upd (some v)) :: rest
      else (k', v) :: objInsert k upd rest

/-- Property read `m[k]` on an insertion-ordered object. -/
def alookup {β : Type} (k : String) : List (String × β) → Option β
  | [] => none
  | (k', v) :: rest => if k' = k then some v else alookup k rest

/-!
`CopilotParser.aggregate` (`src/parser.js`): group records by
`date|source|served_by|action`, counting `numRequests` and keeping the
last-seen identity fields, then emit rows tagged with the constant `ide`.
-/

/-- The grouping key string built by `aggregate`. -/
def entryKey (rec : LogEntry) : String :=
  rec.date ++ "|" ++ rec.source ++ "|" ++ rec.served_by ++ "|" ++ rec.action

/-- The per-key accumulator object `totals[key]` of `aggregate`. -/
structure Totals where
  numRequests : Nat
  name : String
  company : String
  team : String
  date : String
  source : String
  servedBy : String
  action : String
deriving DecidableEq, Repr

/-- Fresh accumulator for a key, before the shared per-record updates run. -/
def totalsInit (rec : LogEntry) : Totals :=
  { numRequests := 0
    name := ""
    company := ""
    team := ""
    date := rec.date
    source := rec.source
    servedBy := rec.served_by
    action := rec.action }

/-- One loop iteration of `aggregate` on the accumulator for `rec`'s key:
create it if absent, then increment the count and overwrite the identity
fields with `rec`'s. -/
def totalsUpd (rec : LogEntry) (o : Option Totals) : Totals :=
  let v := match o with
    | none => totalsInit rec
    | some v => v
  { v with
      numRequests := v.numRequests + 1
      name := rec.name
      company := rec.company
      team := rec.team }

/-- One aggregated output row (`grouped[key]` in `aggregate`; also the shape of
each element of a persisted metrics file). -/
structure AggRow where
  date : String
  source : String
  servedBy : String
  action : String
  numRequests : Nat
  name : String
  team : String
  company : String
  ide : String
deriving DecidableEq, Repr

/-- The second loop of `aggregate`: copy the accumulator and attach the
constant `ide` tag. -/
def toAggRow (v : Totals) : AggRow :=
  { date := v.date
    source := v.source
    servedBy := v.servedBy
    action := v.action
    numRequests := v.numRequests
    name := v.name
    team := v.team
    company := v.company
    ide := "Visual Studio Code" }

/-- `CopilotParser.aggregate` (`src/parser.js`), as the key-to-row object it
returns. -/
def aggregate (records : List LogEntry) : List (String × AggRow) :=
  (records.foldl (fun m rec => objInsert (entryKey rec) (totalsUpd rec) m) []).map
    (fun p => (p.1, toAggRow p.2))

/-!
The merge step of `saveMetricsToJSON` (`src/parser.js`): fold
`[...existingMetrics, ...metrics]` into an object keyed by the reduced key
`source|servedBy|action` (a later row overwrites an earlier one), then take
`Object.values`.
-/

/-- The reduced merge key `source|servedBy|action`. -/
def reducedKey (m : AggRow) : String :=
  m.source ++ "|" ++ m.servedBy ++ "|" ++ m.action

/-- The read-merge-write step of `saveMetricsToJSON` for one date bucket:
`existing` are the rows already in the file, `newRows` the freshly aggregated
rows for that date. -/
def mergeMetrics (existing newRows : List AggRow) : List AggRow :=
  ((existing ++ newRows).foldl
      (fun m metric => objInsert (reducedKey metric) (fun _ => metric) m)
      []).map Prod.snd

/-!
`StateManager` (state store): `loadCollectionState` / `loadParsingState` read
the persisted record if it exists, parse it as JSON, and fall back to the
documented default both when the record is absent and when parsing throws.
The JSON library call is abstracted as a `decode` function whose `none` result
stands for a `JSON.parse` exception.
-/

/-- `CollectionState` with its documented default shape. -/
structure CollectionState where
  lastCollection : Nat
  processedFiles : List String
  fileSizes : List (String × Nat)
deriving DecidableEq, Repr

/-- The default collection state literal from `loadCollectionState`. -/
def defaultCollectionState : CollectionState :=
  { lastCollection := 0, processedFiles := [], fileSizes := [] }

/-- `ParsingState` with its documented default shape. -/
structure ParsingState where
  processedFiles : List (String × Nat)
  lastParse : Nat
deriving DecidableEq, Repr

/-- The default parsing state literal from `loadParsingState`. -/
def defaultParsingState : ParsingState :=
  { processedFiles := [], lastParse := 0 }

/-- Common load shape of `StateManager.loadCollectionState` and
`StateManager.loadParsingState`: `record` is the persisted document if any,
`decode` the JSON parse (`none` when it throws). -/
def loadState {α : Type} (decode : String → Option α) (deflt : α)
    (record : Option String) : α :=
  match record with
  | none => deflt
  | some s =>
      match decode s with
      | some v => v
      | none => deflt

/-- `StateManager.loadCollectionState`. -/
def loadCollectionState (decode : String → Option CollectionState)
    (record : Option String) : CollectionState :=
  loadState decode defaultCollectionState record

/-- `StateManager.loadParsingState`. -/
def loadParsingState (decode : String → Option ParsingState)
    (record : Option String) : ParsingState :=
  loadState decode defaultParsingState record

/-!
The incremental parsing pass of `LogCollector` (`src/collector.js`).  The
filesystem is a pure map `fileSys : String → String` from path to content
(reads are synchronous and no file changes during a run).  A file's size is
its content length, which is also what `parseFileIncremental` credits to the
cursor.
-/

/-- `parsingState.processedFiles[file] || 0`. -/
def cursorOf (st : ParsingState) (file : String) : Nat :=
  (alookup file st.processedFiles).getD 0

/-- `LogCollector.filterNewParsedFiles`: keep files whose current size exceeds
the recorded parsing cursor. -/
def filterNewParsedFiles (fileSys : String → String) (files : List String)
    (st : ParsingState) : List String :=
  files.filter (fun file => cursorOf st file < (fileSys file).length)

/-- `content.split('\n')`. -/
def splitNewline (cs : List Char) : List (List Char) :=
  splitOnCh '\n' cs

/-- `LogCollector.parseFileIncremental`: read the file, parse only the suffix
after the recorded cursor, and set the cursor to the full content length. -/
def parseFileIncremental (fileSys : String → String) (isChat : Bool)
    (st : ParsingState) (file userName company team : String) :
    List LogEntry × ParsingState :=
  let lastSize := cursorOf st file
  let content := fileSys file
  let newContent := content.data.drop lastSize
  let lines := splitNewline newContent
  let records := lines.filterMap (fun l =>
    if isChat then parseChatLine (String.mk l) userName company team
    else parseCopilotLine (String.mk l) userName company team)
  (records,
   { st with
       processedFiles :=
         objInsert file (fun _ => content.length) st.processedFiles })

/-- The `flatMap`s of `parseAndSaveMetrics`: parse each file in order,
threading the mutable parsing state through. -/
def processFiles (fileSys : String → String) (isChat : Bool)
    (files : List String) (st : ParsingState) (userName company team : String) :
    List LogEntry × ParsingState :=
  files.foldl
    (fun acc file =>
      let r := parseFileIncremental fileSys isChat acc.2 file userName company team
      (acc.1 ++ r.1, r.2))
    ([], st)

/-- The successful path of `LogCollector.parseAndSaveMetrics` after file
discovery: filter both file lists against the loaded parsing state, parse the
new copilot files then the new chat files, and stamp `lastParse` when any
records were produced (when none were, the state — with its updated cursors —
is saved as-is). -/
def runParsePass (fileSys : String → String) (copilotFiles chatFiles : List String)
    (st0 : ParsingState) (userName company team : String) (now : Nat) :
    List LogEntry × ParsingState :=
  let newCopilotFiles := filterNewParsedFiles fileSys copilotFiles st0
  let newChatFiles := filterNewParsedFiles fileSys chatFiles st0
  let r1 := processFiles fileSys false newCopilotFiles st0 userName company team
  let r2 := processFiles fileSys true newChatFiles r1.2 userName company team
  let allRecords := r1.1 ++ r2.1
  if allRecords.isEmpty then (allRecords, r2.2)
  else (allRecords, { r2.2 with lastParse := now })

/-!
`HealthChecker` (`src/health-check.js`).  The relevant filesystem state is
whether the report root and its `metrics` subdirectory exist and, when the
latter does, the directory entries with a flag saying whether the file's
content is valid JSON (`JSON.parse` succeeding).  Deleting a corrupted file is
modelled as succeeding.  The `lastParse` argument is the value the checker
reads via `stateManager.loadParsingState()`.
-/

/-- One entry of the metrics directory: file name and whether its content
parses as JSON. -/
structure MetricsEntry where
  name : String
  validJson : Bool
deriving DecidableEq, Repr

/-- Filesystem state seen by the health checker. -/
structure HealthFS where
  rootExists : Bool
  metricsDirExists : Bool
  metricsEntries : List MetricsEntry
deriving DecidableEq, Repr

/-- Result record of `checkMetricsDirectory`, plus the directory entries left
after corrupted files are deleted. -/
structure MetricsCheck where
  issues : List String
  warnings : List String
  needsRecollection : Bool
  metricsFileCount : Nat
  hasMetrics : Bool
  entriesAfter : List MetricsEntry
deriving DecidableEq, Repr

/-- The filter `f.endsWith('.json') && f.startsWith('metrics_')`. -/
def isMetricsFileName (n : String) : Bool :=
  n.endsWith ".json" && n.startsWith "metrics_"

/-- `HealthChecker.checkMetricsDirectory` (`src/health-check.js`). -/
def checkMetricsDirectory (dirExists : Bool) (entries : List MetricsEntry)
    (lastParse : Nat) : MetricsCheck :=
  if !dirExists then
    if 0 < lastParse then
      { issues := ["Metrics directory was deleted"]
        warnings := ["Will regenerate metrics from source logs"]
        needsRecollection := true
        metricsFileCount := 0
        hasMetrics := false
        entriesAfter := entries }
    else
      { issues := []
        warnings := []
        needsRecollection := false
        metricsFileCount := 0
        hasMetrics := false
        entriesAfter := entries }
  else
    let metricFiles := entries.filter (fun e => isMetricsFileName e.name)
    let count0 := metricFiles.length
    let hasMetrics := decide (0 < count0)
    let bad := metricFiles.filter (fun e => !e.validJson)
    let issues0 := bad.map (fun e => "Corrupted metrics file: " ++ e.name)
    let warnings0 := bad.map (fun e => "Deleted corrupted file: " ++ e.name)
    let count := count0 - bad.length
    let entriesAfter :=
      entries.filter (fun e => !(isMetricsFileName e.name && !e.validJson))
    if count = 0 && 0 < lastParse then
      { issues := issues0 ++ ["All metrics files were deleted"]
        warnings := warnings0 ++ ["Will regenerate metrics from source logs"]
        needsRecollection := true
        metricsFileCount := count
        hasMetrics := hasMetrics
        entriesAfter := entriesAfter }
    else
      { issues := issues0
        warnings := warnings0
        needsRecollection := !bad.isEmpty
        metricsFileCount := count
        hasMetrics := hasMetrics
        entriesAfter := entriesAfter }

/-- The health status record built by `performHealthCheck`. -/
structure HealthStatus where
  healthy : Bool
  metricsFileCount : Nat
  hasMetrics : Bool
  needsRecollection : Bool
  issues : List String
  warnings : List String
deriving DecidableEq, Repr

/-- `getPersistedLogsDirectory` (`src/helpers.js`): resolving the report root
directory creates it with `fs.mkdirSync` when it does not exist, as a side
effect, before returning its path — so every caller observes an existing
root.  Creating the root does not create the `metrics` subdirectory. -/
def getPersistedLogsDirectory (fs : HealthFS) : HealthFS :=
  if fs.rootExists then fs else { fs with rootExists := true }

/-- `HealthChecker.performHealthCheck` (`src/health-check.js`): resolve the
report root via `getPersistedLogsDirectory` — whose own `mkdirSync` recreates
a missing root before the checker's `existsSync` test runs — then test the
root (the missing-root branch with its issue, warning and re-collection flag
is transcribed from the source but can no longer fire) and check the metrics
directory; returns the status record and the filesystem as the check leaves
it. -/
def performHealthCheck (fs0 : HealthFS) (lastParse : Nat) :
    HealthStatus × HealthFS :=
  let fs := getPersistedLogsDirectory fs0
  let rootMissing := !fs.rootExists
  let issues0 : List String :=
    if rootMissing then ["Logs directory was deleted"] else []
  let warnings0 : List String :=
    if rootMissing then ["Created missing logs directory"] else []
  let mc := checkMetricsDirectory fs.metricsDirExists fs.metricsEntries lastParse
  let issues := issues0 ++ mc.issues
  let status : HealthStatus :=
    { healthy := issues.isEmpty
      metricsFileCount := mc.metricsFileCount
      hasMetrics := mc.hasMetrics
      needsRecollection := rootMissing || mc.needsRecollection
      issues := issues
      warnings := warnings0 ++ mc.warnings }
  (status,
   { rootExists := true
     metricsDirExists := fs.metricsDirExists
     metricsEntries := mc.entriesAfter })

/-!
Scenario inputs from the specification's testable properties (§8).
-/

/-- The completion-engine scenario line of §8. -/
def completionScenarioLine : String :=
  "2025-09-04 23:02:52.279 [info] [fetchCompletions] Request ... at https://proxy.example.com/v1/engines/gpt-41/completions finished with 200 status after 227.30137500003912ms"

/-- The chat-engine scenario line of §8. -/
def chatScenarioLine : String :=
  "2025-09-03 16:41:26.178 [info] ccreq:ab70e0b0.copilotmd | success | gpt-4.1 | 7006ms | [panel/unknown]"

set_option maxRecDepth 10000 in
/-- C4: on the completion-engine scenario line, the pattern extractor yields an
event with date `2025-09-04`, the completion-engine source kind, the proxy URL
as `servedBy`, action `completion`, and `responseTimeMs` equal to the
floating-point parse of `227.30137500003912`. -/
theorem copilot_scenario_extraction (u c t : String) :
    (parseCopilotLine completionScenarioLine u c t).map toUsageEvent =
      some { date := "2025-09-04"
             source := "completion-engine"
             servedBy := "https://proxy.example.com/v1/engines/gpt-41/completions"
             action := "completion"
             responseTimeMs := parseDecimal "227.30137500003912".data
             name := u, company := c, team := t } := by
  rfl

/-- C9: a line that does not begin with a `YYYY-MM-DD` date yields no chat
event, whatever else it contains. -/
theorem chat_requires_date_prefix (line u c t : String)
    (h : matchDate line.data = none) :
    parseChatLine line u c t = none := by
  unfold parseChatLine
  rw [h]
  split <;> rfl

/-- Witness for C9: a line with the success marker and all three tokens but no
leading date yields no event. -/
theorem chat_requires_date_prefix_witness :
    parseChatLine "log copilotmd | success | gpt-4.1 | 7006ms | [panel/unknown]"
      "u" "c" "t" = none :=
  chat_requires_date_prefix
    "log copilotmd | success | gpt-4.1 | 7006ms | [panel/unknown]"
    "u" "c" "t" (by decide)

/-- C1: merging an existing row and a new row that share the reduced key
`(source, servedBy, action)` yields exactly the new row: the later row
replaces, never sums with, the earlier one. -/
theorem merge_overwrites_same_key (rOld rNew : AggRow)
    (h : reducedKey rOld = reducedKey rNew) :
    mergeMetrics [rOld] [rNew] = [rNew] := by
  simp [mergeMetrics, objInsert, h]

/-- Witness for C1: two concrete rows with the same reduced key but different
counts merge to the new row alone. -/
theorem merge_overwrites_same_key_witness :
    mergeMetrics
      [{ date := "2025-09-04", source := "copilot", servedBy := "https://m",
         action := "completion", numRequests := 5, name := "a", team := "t",
         company := "c", ide := "Visual Studio Code" }]
      [{ date := "2025-09-04", source := "copilot", servedBy := "https://m",
         action := "completion", numRequests := 2, name := "b", team := "t",
         company := "c", ide := "Visual Studio Code" }] =
      [{ date := "2025-09-04", source := "copilot", servedBy := "https://m",
         action := "completion", numRequests := 2, name := "b", team := "t",
         company := "c", ide := "Visual Studio Code" }] :=
  merge_overwrites_same_key _ _ (by decide)

/-- C6: for both state kinds, loading returns the documented default whenever
the persisted record is absent or fails to parse as JSON, and never raises
(the load operations are total functions). -/
theorem load_state_defaults
    (decodeC : String → Option CollectionState)
    (decodeP : String → Option ParsingState)
    (rc rp : Option String)
    (hc : rc = none ∨ ∃ s, rc = some s ∧ decodeC s = none)
    (hp : rp = none ∨ ∃ s, rp = some s ∧ decodeP s = none) :
    loadCollectionState decodeC rc = defaultCollectionState ∧
    loadParsingState decodeP rp = defaultParsingState := by
  constructor
  · rcases hc with h | ⟨s, rfl, hs⟩
    · simp [loadCollectionState, loadState, h]
    · simp [loadCollectionState, loadState, hs]
  · rcases hp with h | ⟨s, rfl, hs⟩
    · simp [loadParsingState, loadState, h]
    · simp [loadParsingState, loadState, hs]

/-- Witness for C6: an absent collection record and a corrupted parsing record
both load as the defaults. -/
theorem load_state_defaults_witness :
    loadCollectionState (fun _ => none) none = defaultCollectionState ∧
    loadParsingState (fun _ => none) (some "not json") = defaultParsingState :=
  load_state_defaults (fun _ => none) (fun _ => none) none (some "not json")
    (Or.inl rfl) (Or.inr ⟨"not json", rfl, rfl⟩)

/-- C7: with the storage root present but the metrics directory gone, a prior
successful parse on record makes the checker report exactly the one issue
"Metrics directory was deleted" with `needsRecollection = true`, while a root
that was never parsed reports `healthy = true`. -/
theorem health_check_metrics_dir_scenarios (es : List MetricsEntry) (lp : Nat)
    (h : 0 < lp) :
    ((performHealthCheck ⟨true, false, es⟩ lp).1.issues =
        ["Metrics directory was deleted"] ∧
      (performHealthCheck ⟨true, false, es⟩ lp).1.needsRecollection = true) ∧
    (performHealthCheck ⟨true, false, es⟩ 0).1.healthy = true := by
  refine ⟨⟨?_, ?_⟩, ?_⟩ <;>
    simp [performHealthCheck, getPersistedLogsDirectory, checkMetricsDirectory, h]

/-- Witness for C7: the deleted-metrics scenario at `lastParse = 1`. -/
theorem health_check_metrics_dir_scenarios_witness :
    ((performHealthCheck ⟨true, false, []⟩ 1).1.issues =
        ["Metrics directory was deleted"] ∧
      (performHealthCheck ⟨true, false, []⟩ 1).1.needsRecollection = true) ∧
    (performHealthCheck ⟨true, false, []⟩ 0).1.healthy = true :=
  health_check_metrics_dir_scenarios [] 1 (by decide)

/-- C8 (code bug): the claimed flagging of a missing report root is
unreachable — `getPersistedLogsDirectory` recreates the root before the
checker's existence test, so for every filesystem state and parse record the
status carries only the metrics checks (never the "Logs directory was
deleted" issue or its re-collection flag), and on the failing input of a
missing, never-parsed root the check recreates the root but reports no
issues, `needsRecollection = false` and `healthy = true`. -/
theorem health_check_root_silent_repair :
    (∀ (fs : HealthFS) (lp : Nat),
        (performHealthCheck fs lp).1.issues =
          (checkMetricsDirectory fs.metricsDirExists fs.metricsEntries lp).issues ∧
        (performHealthCheck fs lp).1.needsRecollection =
          (checkMetricsDirectory fs.metricsDirExists fs.metricsEntries lp).needsRecollection ∧
        (performHealthCheck fs lp).2.rootExists = true) ∧
    (performHealthCheck ⟨false, false, []⟩ 0).2.rootExists = true ∧
    (performHealthCheck ⟨false, false, []⟩ 0).1.issues = [] ∧
    (performHealthCheck ⟨false, false, []⟩ 0).1.needsRecollection = false ∧
    (performHealthCheck ⟨false, false, []⟩ 0).1.healthy = true := by
  refine ⟨?_, by decide, by decide, by decide, by decide⟩
  intro fs lp
  obtain ⟨r, md, es⟩ := fs
  cases r <;> exact ⟨rfl, rfl, rfl⟩

/-- C5: a chat line yields an event only if it carries the
`"copilotmd | success"` marker; the event's `served_by` and `action` are the
1st and 3rd pipe-delimited tokens after the `"success"` token and its
`response_time` is parsed from the 2nd; a line whose `"success"` token is not
followed by three further tokens yields no event; and the §8 chat scenario
line yields exactly the specified event. -/
theorem chat_extractor_tokens :
    (∀ line u c t e, parseChatLine line u c t = some e →
        containsSub "copilotmd | success".data line.data = true ∧
        ∃ idx, idxOf? "success".data (chatParts line) = some idx ∧
          idx + 3 < (chatParts line).length ∧
          e.served_by = String.mk ((chatParts line).getD (idx + 1) []) ∧
          e.action = String.mk ((chatParts line).getD (idx + 3) []) ∧
          ∃ ds, firstDigitRun ((chatParts line).getD (idx + 2) []) = some ds ∧
            e.response_time = parseDecimal ds) ∧
    (∀ line u c t idx, idxOf? "success".data (chatParts line) = some idx →
        (chatParts line).length ≤ idx + 3 →
        parseChatLine line u c t = none) ∧
    (∀ u c t, (parseChatLine chatScenarioLine u c t).map toUsageEvent =
        some { date := "2025-09-03", source := "chat-engine", servedBy := "gpt-4.1",
               action := "[panel/unknown]", responseTimeMs := 7006,
               name := u, company := c, team := t }) := by
  refine ⟨?_, ?_, ?_⟩
  · intro line u c t e h
    unfold parseChatLine at h
    split at h
    · exact absurd h (by simp)
    · rename_i hmarker
      refine ⟨by simpa using hmarker, ?_⟩
      split at h
      · exact absurd h (by simp)
      · rename_i date rest hdate
        split at h
        · exact absurd h (by simp)
        · rename_i idx hidx
          split at h
          · exact absurd h (by simp)
          · rename_i hlen
            split at h
            · exact absurd h (by simp)
            · rename_i ds hds
              refine ⟨idx, hidx, by omega, ?_, ?_, ds, hds, ?_⟩ <;>
                (cases h; rfl)
  · intro line u c t idx hidx hlen
    unfold parseChatLine
    split
    · rfl
    · split
      · rfl
      · rename_i date rest hdate
        rw [hidx]
        simp [hlen]
  · intro u c t
    rfl

set_option maxRecDepth 10000 in
/-- Witness for C5: the scenario line carries the marker (shown through the
only-if direction applied to its parse), and a marker-bearing line whose
`"success"` token is followed by just one token yields no event. -/
theorem chat_extractor_tokens_witness :
    containsSub "copilotmd | success".data chatScenarioLine.data = true ∧
    parseChatLine "2025-09-03 a.copilotmd | success | gpt-4.1" "u" "c" "t" = none := by
  constructor
  · exact (chat_extractor_tokens.1 chatScenarioLine "u" "c" "t"
      { date := "2025-09-03", source := "copilot-chat", served_by := "gpt-4.1",
        action := "[panel/unknown]", response_time := 7006,
        name := "u", company := "c", team := "t" } (by rfl)).1
  · exact chat_extractor_tokens.2.1 "2025-09-03 a.copilotmd | success | gpt-4.1"
      "u" "c" "t" 1 (by decide) (by decide)

/-!
Association-list lemmas about `objInsert` folds, shared by the aggregate and
merge proofs.
-/

/-- Reading key `a` after assigning key `k`. -/
lemma alookup_objInsert {β : Type} (k a : String) (upd : Option β → β)
    (m : List (String × β)) :
    alookup a (objInsert k upd m) =
      if k = a then some (upd (alookup a m)) else alookup a m := by
  induction m with
  | nil =>
      by_cases h : k = a <;> simp [objInsert, alookup, h]
  | cons p rest ih =>
      obtain ⟨k', v⟩ := p
      by_cases h1 : k' = k
      · subst h1
        by_cases h2 : k' = a <;> simp [objInsert, alookup, h2]
      · by_cases h2 : k' = a
        · subst h2
          have h3 : ¬ k = k' := fun h => h1 h.symm
          simp [objInsert, alookup, h1, h3]
        · simp [objInsert, alookup, h1, h2, ih]

/-- Reading key `a` after folding a record list into an object: only the
records whose key is `a` matter, applied in list order. -/
lemma alookup_foldl {β γ : Type} (keyf : γ → String) (updf : γ → Option β → β)
    (l : List γ) (acc : List (String × β)) (a : String) :
    alookup a (l.foldl (fun m r => objInsert (keyf r) (updf r) m) acc) =
      (l.filter (fun r => keyf r = a)).foldl
        (fun o r => some (updf r o)) (alookup a acc) := by
  induction l generalizing acc with
  | nil => rfl
  | cons r rest ih =>
      rw [List.foldl_cons, ih, alookup_objInsert]
      by_cases h : keyf r = a <;> simp [h, List.filter_cons]

/-- A value found by key is among the object's values. -/
lemma mem_map_snd_of_alookup {β : Type} (a : String) (m : List (String × β))
    (v : β) (h : alookup a m = some v) : v ∈ m.map Prod.snd := by
  induction m with
  | nil => simp [alookup] at h
  | cons p rest ih =>
      obtain ⟨k', w⟩ := p
      by_cases h1 : k' = a
      · simp [alookup, h1] at h
        simp [h]
      · simp [alookup, h1] at h
        simp [ih h]

/-- In a row list with pairwise distinct reduced keys, filtering for a member
row's reduced key isolates exactly that row. -/
lemma filter_key_eq_singleton (l : List AggRow)
    (hnodup : (l.map reducedKey).Nodup) (m : AggRow) (hm : m ∈ l) :
    l.filter (fun r => reducedKey r = reducedKey m) = [m] := by
  induction l with
  | nil => cases hm
  | cons a rest ih =>
      rw [List.map_cons, List.nodup_cons] at hnodup
      rcases List.mem_cons.mp hm with rfl | hmem
      · have : rest.filter (fun r => reducedKey r = reducedKey m) = [] := by
          apply List.filter_eq_nil_iff.mpr
          intro r hr hkey
          exact hnodup.1 (by
            rw [← of_decide_eq_true hkey]
            exact List.mem_map_of_mem reducedKey hr)
        simp [List.filter_cons, this]
      · have hne : ¬ reducedKey a = reducedKey m := by
          intro he
          exact hnodup.1 (he ▸ List.mem_map_of_mem reducedKey hmem)
        simp [List.filter_cons, hne, ih hnodup.2 hmem]

/-- C10: merging new rows into an existing report whose rows have pairwise
distinct reduced keys (as every report this writer produces does) preserves
every existing row whose reduced key does not occur among the new rows; only
rows whose reduced key recurs in the new batch are replaced. -/
theorem merge_preserves_untouched_rows (existing newRows : List AggRow)
    (m : AggRow)
    (hnodup : (existing.map reducedKey).Nodup)
    (hmem : m ∈ existing)
    (hnew : reducedKey m ∉ newRows.map reducedKey) :
    m ∈ mergeMetrics existing newRows := by
  apply mem_map_snd_of_alookup (reducedKey m)
  rw [alookup_foldl, List.filter_append,
    filter_key_eq_singleton existing hnodup m hmem]
  have hnil : newRows.filter (fun r => reducedKey r = reducedKey m) = [] := by
    apply List.filter_eq_nil_iff.mpr
    intro r hr hkey
    exact hnew (by
      rw [← of_decide_eq_true hkey]
      exact List.mem_map_of_mem reducedKey hr)
  rw [hnil]
  rfl

/-- Witness for C10: an existing row for a model not mentioned in the new
batch survives the merge. -/
theorem merge_preserves_untouched_rows_witness :
    { date := "2025-09-04", source := "copilot", servedBy := "https://a",
      action := "completion", numRequests := 4, name := "n", team := "t",
      company := "c", ide := "Visual Studio Code" } ∈
      mergeMetrics
        [{ date := "2025-09-04", source := "copilot", servedBy := "https://a",
           action := "completion", numRequests := 4, name := "n", team := "t",
           company := "c", ide := "Visual Studio Code" },
         { date := "2025-09-04", source := "copilot", servedBy := "https://b",
           action := "completion", numRequests := 1, name := "n", team := "t",
           company := "c", ide := "Visual Studio Code" }]
        [{ date := "2025-09-04", source := "copilot", servedBy := "https://b",
           action := "completion", numRequests := 9, name := "n", team := "t",
           company := "c", ide := "Visual Studio Code" }] :=
  merge_preserves_untouched_rows _ _ _ (by decide) (by decide) (by decide)

/-- After `parseFileIncremental`, the processed file's cursor is the full
content length; other cursors are untouched. -/
lemma cursorOf_parseFileIncremental (fileSys : String → String) (isChat : Bool)
    (st : ParsingState) (file u c t f : String) :
    cursorOf (parseFileIncremental fileSys isChat st file u c t).2 f =
      if file = f then (fileSys file).length else cursorOf st f := by
  unfold parseFileIncremental cursorOf
  simp only [alookup_objInsert]
  by_cases h : file = f <;> simp [h]

/-- The state component of `processFiles` is the plain fold of the per-file
state updates. -/
lemma processFiles_snd (fileSys : String → String) (isChat : Bool)
    (files : List String) (st : ParsingState) (u c t : String) :
    (processFiles fileSys isChat files st u c t).2 =
      files.foldl (fun s file => (parseFileIncremental fileSys isChat s file u c t).2) st := by
  unfold processFiles
  suffices h : ∀ (acc : List LogEntry × ParsingState),
      (files.foldl (fun acc file =>
        let r := parseFileIncremental fileSys isChat acc.2 file u c t
        (acc.1 ++ r.1, r.2)) acc).2 =
      files.foldl (fun s file => (parseFileIncremental fileSys isChat s file u c t).2) acc.2 by
    exact h ([], st)
  induction files with
  | nil => intro acc; rfl
  | cons file rest ih => intro acc; exact ih _

/-- Cursor after a sequence of incremental parses: each processed file ends at
its full length, all others keep their prior cursor. -/
lemma cursorOf_foldl (fileSys : String → String) (isChat : Bool)
    (files : List String) (st : ParsingState) (u c t f : String) :
    cursorOf (files.foldl
        (fun s file => (parseFileIncremental fileSys isChat s file u c t).2) st) f =
      if f ∈ files then (fileSys f).length else cursorOf st f := by
  induction files generalizing st with
  | nil => simp
  | cons file rest ih =>
      rw [List.foldl_cons, ih]
      by_cases hmem : f ∈ rest
      · simp [hmem]
      · by_cases he : file = f
        · subst he
          simp [hmem, cursorOf_parseFileIncremental]
        · have he2 : ¬ f = file := fun h => he h.symm
          simp [hmem, he, he2, cursorOf_parseFileIncremental, List.mem_cons]

/-- C2: after a successful parsing pass, the cursor recorded for every
processed file equals the file's total length at time of processing and is
at least its value before the run. -/
theorem parse_run_cursor_final (fileSys : String → String)
    (copilotFiles chatFiles : List String) (st0 : ParsingState)
    (u c t : String) (now : Nat) (f : String)
    (hf : f ∈ filterNewParsedFiles fileSys copilotFiles st0 ++
            filterNewParsedFiles fileSys chatFiles st0) :
    cursorOf (runParsePass fileSys copilotFiles chatFiles st0 u c t now).2 f =
      (fileSys f).length ∧
    cursorOf st0 f ≤
      cursorOf (runParsePass fileSys copilotFiles chatFiles st0 u c t now).2 f := by
  have hlt : cursorOf st0 f < (fileSys f).length := by
    rcases List.mem_append.mp hf with h | h <;>
      simpa using (List.mem_filter.mp h).2
  have key : cursorOf (processFiles fileSys true
      (filterNewParsedFiles fileSys chatFiles st0)
      (processFiles fileSys false (filterNewParsedFiles fileSys copilotFiles st0)
        st0 u c t).2 u c t).2 f = (fileSys f).length := by
    rw [processFiles_snd, cursorOf_foldl, processFiles_snd, cursorOf_foldl]
    rcases List.mem_append.mp hf with h | h <;> simp [h]
  have hcur : cursorOf (runParsePass fileSys copilotFiles chatFiles st0 u c t now).2 f =
      (fileSys f).length := by
    simp only [runParsePass]
    split
    · exact key
    · exact key
  exact ⟨hcur, by omega⟩

/-- A one-file filesystem for the cursor witness. -/
def sampleFileSys : String → String :=
  fun p => if p = "log1" then "no matching lines here" else ""

/-- Witness for C2: a fresh state and one grown file; after the pass its
cursor equals the content length. -/
theorem parse_run_cursor_final_witness :
    cursorOf (runParsePass sampleFileSys ["log1"] [] defaultParsingState
        "u" "c" "t" 7).2 "log1" = (sampleFileSys "log1").length ∧
    cursorOf defaultParsingState "log1" ≤
      cursorOf (runParsePass sampleFileSys ["log1"] [] defaultParsingState
        "u" "c" "t" 7).2 "log1" :=
  parse_run_cursor_final sampleFileSys ["log1"] [] defaultParsingState
    "u" "c" "t" 7 "log1" (by decide)

/-- Reading a key through a value-mapped object. -/
lemma alookup_map_value {β γ : Type} (f : β → γ) (a : String)
    (m : List (String × β)) :
    alookup a (m.map (fun p => (p.1, f p.2))) = (alookup a m).map f := by
  induction m with
  | nil => rfl
  | cons p rest ih =>
      obtain ⟨k, v⟩ := p
      by_cases h : k = a <;> simp [alookup, h, ih]

/-- Folding a nonempty group of records through `totalsUpd`: the count grows
by the group size and the identity fields end up as the last record's. -/
lemma foldTotals_char (ms : List LogEntry) (o : Option Totals) (h : ms ≠ []) :
    ∃ w, ms.foldl (fun o r => some (totalsUpd r o)) o = some w ∧
      w.numRequests = o.elim 0 Totals.numRequests + ms.length ∧
      some (w.name, w.company, w.team) =
        ms.getLast?.map (fun r => (r.name, r.company, r.team)) := by
  induction ms generalizing o with
  | nil => exact absurd rfl h
  | cons r rest ih =>
      cases rest with
      | nil =>
          refine ⟨totalsUpd r o, rfl, ?_, by simp [totalsUpd]⟩
          cases o <;> simp [totalsUpd, totalsInit]
      | cons r2 rest2 =>
          obtain ⟨w, hw, hn, hid⟩ := ih (some (totalsUpd r o)) (by simp)
          refine ⟨w, hw, ?_, ?_⟩
          · rw [hn]
            cases o <;> simp [totalsUpd, totalsInit] <;> omega
          · rw [hid, List.getLast?_cons_cons]

/-- Looking up a key in the aggregate reduces to folding the records of that
key's group, in input order. -/
lemma aggregate_alookup (l : List LogEntry) (k : String) :
    alookup k (aggregate l) =
      ((l.filter (fun r => entryKey r = k)).foldl
        (fun o r => some (totalsUpd r o)) none).map toAggRow := by
  unfold aggregate
  rw [alookup_map_value, alookup_foldl]
  rfl

/-- The `numRequests` of an aggregate row is exactly the number of records in
its group (and the row exists exactly when the group is nonempty). -/
lemma aggregate_numRequests_count (m : List LogEntry) (k : String) :
    (alookup k (aggregate m)).map AggRow.numRequests =
      if 0 < m.countP (fun r => entryKey r = k)
      then some (m.countP (fun r => entryKey r = k)) else none := by
  rw [aggregate_alookup]
  by_cases h : m.filter (fun r => entryKey r = k) = []
  · rw [h]
    have hc : m.countP (fun r => entryKey r = k) = 0 := by
      rw [List.countP_eq_length_filter, h]
      rfl
    simp [hc]
  · obtain ⟨w, hw, hn, -⟩ := foldTotals_char _ none h
    rw [hw]
    have hc : m.countP (fun r => entryKey r = k) =
        (m.filter (fun r => entryKey r = k)).length :=
      List.countP_eq_length_filter _ _
    have hpos : 0 < m.countP (fun r => entryKey r = k) := by
      rw [hc]
      exact List.length_pos.mpr h
    simp only [hpos, if_pos, Option.map_some, toAggRow, hn, hc]
    simp
    exact ⟨List.length_pos.mpr h, by simp [toAggRow, hn]⟩

/-- C3: for any permutation of the event list that (trivially) preserves group
membership, each group key's `numRequests` is unchanged and equals the number
of events in the group, while the row's `name`/`company`/`team` are those of
the group's last event in the given (unpermuted) input order. -/
theorem aggregate_count_perm_last_identity
    (l l' : List LogEntry) (hperm : l.Perm l') (k : String) :
    ((alookup k (aggregate l)).map AggRow.numRequests =
        (alookup k (aggregate l')).map AggRow.numRequests) ∧
    ((alookup k (aggregate l)).map AggRow.numRequests =
        (if 0 < l.countP (fun r => entryKey r = k)
         then some (l.countP (fun r => entryKey r = k)) else none)) ∧
    ((alookup k (aggregate l)).map (fun row => (row.name, row.company, row.team)) =
        (l.filter (fun r => entryKey r = k)).getLast?.map
          (fun r => (r.name, r.company, r.team))) := by
  refine ⟨?_, aggregate_numRequests_count l k, ?_⟩
  · rw [aggregate_numRequests_count l k, aggregate_numRequests_count l' k,
      hperm.countP_eq]
  · rw [aggregate_alookup]
    by_cases h : l.filter (fun r => entryKey r = k) = []
    · rw [h]
      rfl
    · obtain ⟨w, hw, -, hid⟩ := foldTotals_char _ none h
      rw [hw]
      exact hid

/-- Sample chat event by "alice", first in input order. -/
def sampleEventA : LogEntry :=
  { date := "2025-09-03", source := "copilot-chat", served_by := "gpt-4.1",
    action := "[panel/unknown]", response_time := 7006,
    name := "alice", company := "acme", team := "core" }

/-- Sample chat event by "bob", same group, last in input order. -/
def sampleEventB : LogEntry :=
  { date := "2025-09-03", source := "copilot-chat", served_by := "gpt-4.1",
    action := "[panel/unknown]", response_time := 12,
    name := "bob", company := "acme", team := "core" }

/-- Witness for C3: two same-group events and their swap; the count is 2 under
both orders and the identity fields are the last event's ("bob"). -/
theorem aggregate_count_perm_last_identity_witness :
    ((alookup (entryKey sampleEventA) (aggregate [sampleEventA, sampleEventB])).map
        AggRow.numRequests =
      (alookup (entryKey sampleEventA) (aggregate [sampleEventB, sampleEventA])).map
        AggRow.numRequests) ∧
    ((alookup (entryKey sampleEventA) (aggregate [sampleEventA, sampleEventB])).map
        AggRow.numRequests =
      (if 0 < [sampleEventA, sampleEventB].countP
            (fun r => entryKey r = entryKey sampleEventA)
       then some ([sampleEventA, sampleEventB].countP
            (fun r => entryKey r = entryKey sampleEventA)) else none)) ∧
    ((alookup (entryKey sampleEventA) (aggregate [sampleEventA, sampleEventB])).map
        (fun row => (row.name, row.company, row.team)) =
      ([sampleEventA, sampleEventB].filter
          (fun r => entryKey r = entryKey sampleEventA)).getLast?.map
        (fun r => (r.name, r.company, r.team))) :=
  aggregate_count_perm_last_identity [sampleEventA, sampleEventB]
    [sampleEventB, sampleEventA] (List.Perm.swap sampleEventB sampleEventA [])
    (entryKey sampleEventA)
